import Mathlib

/-!
A shallow embedding of `src/service.js` of the moleculer-apollo-server
repository.  The embedding models JSON-like JavaScript values together with
the lodash operations the service uses (`_.get`, `_.set`, `_.unset`,
`_.defaultsDeep`), the resolver synthesis (`createActionResolver`,
`createAsyncIteratorResolver`), the schema composition
(`generateGraphQLSchema`), the loader registry (`createLoaders`) and the
rebuild protocol (`prepareGraphQLSchema`).  Machine-level concerns
(promises as values, the HTTP layer) are modelled by explicit `Except`
results and by an interleaving semantics for the single `await` point of
the rebuild routine.
-/

namespace MoleculerApollo

/-- JSON-ish JavaScript values.  `undef` is JavaScript `undefined`,
distinct from `null`; the distinction matters for `_.defaultsDeep`,
which only fills slots whose current value is `undefined`. -/
inductive JVal where
  | undef
  | null
  | bool (b : Bool)
  | num (n : Int)
  | str (s : String)
  | arr (xs : List JVal)
  | obj (fields : List (String × JVal))

/-- JavaScript truthiness of a value (`NaN` is not modelled). -/
def truthy : JVal → Bool
  | .undef => false
  | .null => false
  | .bool b => b
  | .num n => n != 0
  | .str s => !s.isEmpty
  | .arr _ => true
  | .obj _ => true

/-- JavaScript `value == null`, true exactly for `undefined` and `null`. -/
def isNullish : JVal → Bool
  | .undef => true
  | .null => true
  | _ => false

/-- First-match association lookup, the behaviour of JavaScript property
access on the object models used here. -/
def alookup {α : Type} : List (String × α) → String → Option α
  | [], _ => none
  | (k, v) :: rest, key => if k = key then some v else alookup rest key

/-- Property assignment on an object: overwrite in place if the key exists
(keeping its position, as JavaScript does), otherwise append. -/
def setKey {α : Type} : List (String × α) → String → α → List (String × α)
  | [], key, v => [(key, v)]
  | (k, w) :: rest, key, v =>
      if k = key then (key, v) :: rest else (k, w) :: setKey rest key v

/-- Split a lodash path string on the dots, as `_.toPath` does for the
plain dotted paths used by the service (bracket syntax is not used). -/
def splitPathAux (acc : List Char) : List Char → List String
  | [] => [String.mk acc.reverse]
  | '.' :: r => String.mk acc.reverse :: splitPathAux [] r
  | c :: r => splitPathAux (c :: acc) r

def parsePath (s : String) : List String :=
  splitPathAux [] s.data

/-- Digit-string parser (kernel-reducible stand-in for `String.toNat?`),
used to decide whether a path key is an array index. -/
def digitsToNat? (acc : Nat) : List Char → Option Nat
  | [] => some acc
  | c :: r =>
      if c.isDigit then digitsToNat? (acc * 10 + (c.toNat - 48)) r else none

def strToNat? (s : String) : Option Nat :=
  match s.data with
  | [] => none
  | cs => digitsToNat? 0 cs

/-- Set index `i` of a list, extending with `undef` holes as lodash does
when assigning past the end of an array. -/
def padSet : List JVal → Nat → JVal → List JVal
  | [], 0, v => [v]
  | [], i + 1, v => .undef :: padSet [] i v
  | _ :: xs, 0, v => v :: xs
  | x :: xs, i + 1, v => x :: padSet xs i v

/-- lodash `_.get` along an already-split path. -/
def jgetP : JVal → List String → JVal
  | v, [] => v
  | .obj fs, k :: rest => jgetP ((alookup fs k).getD .undef) rest
  | .arr xs, k :: rest =>
      match strToNat? k with
      | some i => jgetP ((xs.get? i).getD .undef) rest
      | none => jgetP .undef rest
  | _, _ :: rest => jgetP .undef rest

/-- lodash `_.get(value, path)` with a dotted path string. -/
def jget (v : JVal) (path : String) : JVal :=
  jgetP v (parsePath path)

/-- lodash `_.set` along an already-split path.  When an intermediate
value is not a container it is replaced by a fresh object (or array when
the next key is an integer index), as lodash's `baseSet` does.  A
non-index key on an array is left unchanged (lodash would attach an
expando property, which the array model cannot represent; the service
never does this). -/
def jsetP : JVal → List String → JVal → JVal
  | _, [], x => x
  | .obj fs, k :: rest, x =>
      .obj (setKey fs k (jsetP ((alookup fs k).getD .undef) rest x))
  | .arr xs, k :: rest, x =>
      match strToNat? k with
      | some i => .arr (padSet xs i (jsetP ((xs.get? i).getD .undef) rest x))
      | none => .arr xs
  | _, k :: rest, x =>
      match strToNat? k with
      | some i => .arr (padSet [] i (jsetP .undef rest x))
      | none => .obj [(k, jsetP .undef rest x)]

/-- lodash `_.set(value, path, x)`: on a non-container root the value is
returned unchanged (lodash's `isObject` guard). -/
def jset (v : JVal) (path : String) (x : JVal) : JVal :=
  match v with
  | .obj _ => jsetP v (parsePath path) x
  | .arr _ => jsetP v (parsePath path) x
  | _ => v

/-- lodash `_.unset` along an already-split path. -/
def junsetP : JVal → List String → JVal
  | v, [] => v
  | .obj fs, [k] => .obj (fs.filter (fun kv => kv.1 != k))
  | .obj fs, k :: rest =>
      match alookup fs k with
      | some w => .obj (setKey fs k (junsetP w rest))
      | none => .obj fs
  | .arr xs, [k] =>
      match strToNat? k with
      | some i => .arr (if i < xs.length then xs.set i .undef else xs)
      | none => .arr xs
  | .arr xs, k :: rest =>
      match strToNat? k with
      | some i =>
          match xs.get? i with
          | some w => .arr (xs.set i (junsetP w rest))
          | none => .arr xs
      | none => .arr xs
  | v, _ => v

/-- lodash `_.unset(value, path)` with a dotted path string. -/
def junset (v : JVal) (path : String) : JVal :=
  junsetP v (parsePath path)

mutual
/-- lodash `_.defaultsDeep(dst, src)` (one source): the destination wins
wherever it is defined; plain objects are merged recursively, arrays are
merged element-wise, and an `undefined` destination slot is filled from
the source. -/
def ddMerge : JVal → JVal → JVal
  | .undef, s => s
  | .obj fs, .obj gs => .obj (ddObj fs gs)
  | .arr xs, .arr ys => .arr (ddArr xs ys)
  | v, _ => v
termination_by structural v _ => v

/-- Field-wise object merge for `_.defaultsDeep`: destination fields keep
their positions (recursively merged when the source also has the key),
source-only fields are appended in source order. -/
def ddObj : List (String × JVal) → List (String × JVal) → List (String × JVal)
  | [], gs => gs
  | (k, v) :: fs, gs =>
      (k, match alookup gs k with
          | some w => ddMerge v w
          | none => v) :: ddObj fs (gs.filter (fun kv => kv.1 != k))
termination_by structural fs _ => fs

/-- Element-wise array merge for `_.defaultsDeep`. -/
def ddArr : List JVal → List JVal → List JVal
  | [], ys => ys
  | xs, [] => xs
  | x :: xs, y :: ys => ddMerge x y :: ddArr xs ys
termination_by structural xs _ => xs
end

/-- lodash `_.defaultsDeep(a, b, c)` applies the sources left to right. -/
def defaultsDeep3 (a b c : JVal) : JVal :=
  ddMerge (ddMerge a b) c

/-- Top-level property read of an object value (`none` on non-objects). -/
def topGet : JVal → String → Option JVal
  | .obj fs, k => alookup fs k
  | _, _ => none

/-- Whether a value is an object. -/
def isObj : JVal → Bool
  | .obj _ => true
  | _ => false

/-- A JavaScript error value as the service handles it: the Moleculer
fields used by `service.js` (`message`, `code`, `type`, the `ctx`
back-reference a broker attaches to a call error, and the nested cause
stored in the `data` payload of a `MoleculerServerError`). -/
inductive JsError where
  | mk (name : String) (message : String) (code : Int) (errType : String)
       (ctx : JVal) (cause : Option JsError)

def JsError.ctxRef : JsError → JVal
  | .mk _ _ _ _ c _ => c

def JsError.causeOf : JsError → Option JsError
  | .mk _ _ _ _ _ e => e

def JsError.messageOf : JsError → String
  | .mk _ m _ _ _ _ => m

/-- Lines 193–195 of `service.js`: `if (err && err.ctx) err.ctx = null;`
clears the back-reference from the error to the invoking call context. -/
def scrubCtx : JsError → JsError
  | .mk n m c t ctx cause =>
      if truthy ctx then .mk n m c t .null cause else .mk n m c t ctx cause

/-- A strict-mode `ReferenceError` for an unbound identifier. -/
def referenceError (ident : String) : JsError :=
  .mk "ReferenceError" (ident ++ " is not defined") 0 "" .null none

/-- The resolver definition object destructured at lines 130–143 of
`service.js`.  The mapping objects (`argParams`, `rootParams`,
`metaParams`) are JavaScript objects from source keys to target lodash
paths, modelled as association lists in insertion order. -/
structure ActionResolverDef where
  dataLoader : Bool := false
  nullIfError : Bool := false
  params : JVal := .obj []
  argParams : List (String × String) := []
  rootParams : List (String × String) := []
  metaParams : List (String × String) := []

/-- The per-invocation execution context a synthesized resolver sees:
`context.ctx.meta`, the remote call capability `context.ctx.call`, and
the loader registry `context.loaders` (loads modelled as pure maps; the
claims below never make a loader fail). -/
structure ResolverCtx where
  meta : JVal
  callResult : String → JVal → Except JsError JVal
  loaders : String → JVal → JVal

/-- One guarded mapping stage of lines 168–174 of `service.js`: when the
source value `w` is truthy and the mapping object is non-empty, assign
each mapped source key's value into the overlay at the target path. -/
def overlayStage (w : JVal) (mappings : List (String × String)) (p : JVal) :
    JVal :=
  if truthy w && !mappings.isEmpty then
    mappings.foldl (fun p kv => jset p kv.2 (jget w kv.1)) p
  else p

/-- Lines 176–181 of `service.js`: when `argParams` is non-empty, assign
each mapped arg into the overlay and remove the used key from `args`. -/
def argStage (mappings : List (String × String)) (st : JVal × JVal) :
    JVal × JVal :=
  if !mappings.isEmpty then
    mappings.foldl
      (fun st kv => (jset st.1 kv.2 (jget st.2 kv.1), junset st.2 kv.1)) st
  else st

/-- Lines 166–181 of `service.js`: starting from `const p = {}`, assign
the meta-to-param mappings, then the root-to-param mappings, then the
arg-to-param mappings (removing each used key from `args`).  Returns the
overlay object `p` together with the mutated `args`. -/
def directOverlayArgs (d : ActionResolverDef) (root args meta : JVal) :
    JVal × JVal :=
  argStage d.argParams
    (overlayStage root d.rootParams (overlayStage meta d.metaParams (.obj [])),
      args)

/-- Line 183–186 of `service.js`: the parameter object the remote call
receives, `_.defaultsDeep(args, p, params)` after the assignments above. -/
def directCallParams (d : ActionResolverDef) (root args meta : JVal) : JVal :=
  let st := directOverlayArgs d root args meta
  defaultsDeep3 st.2 st.1 d.params

/-- The resolver function returned by `createActionResolver` (lines
145–198 of `service.js`), applied to `(root, args, context)`.  The
`dataLoader` branch reads the first declared root key (skipped when the
key is the empty string, since `if (firstRootKey)` tests string
truthiness; when `root` is falsy, `root && _.get(...)` yields `root`
itself), resolves `null` on a nullish value, and otherwise feeds the
value (element-wise for arrays) to the context's loader for the action.
The direct branch dispatches the merged parameter object and on failure
either swallows the error (`nullIfError`) or rethrows it with the `ctx`
back-reference cleared. -/
def runActionResolver (actionName : String) (d : ActionResolverDef)
    (rctx : ResolverCtx) (root args : JVal) : Except JsError JVal :=
  if d.dataLoader then
    let value : JVal :=
      match d.rootParams with
      | (k, _) :: _ =>
          if !k.isEmpty then (if truthy root then jget root k else root)
          else .undef
      | [] => .undef
    if isNullish value then .ok .null
    else
      match value with
      | .arr xs => .ok (.arr (xs.map (rctx.loaders actionName)))
      | v => .ok (rctx.loaders actionName v)
  else
    match rctx.callResult actionName (directCallParams d root args rctx.meta) with
    | .ok v => .ok v
    | .error e => if d.nullIfError then .ok .null else .error (scrubCtx e)

/-- JavaScript `\s` whitespace (the ASCII part, which is all the service
ever meets in declaration strings). -/
def jsWS (c : Char) : Bool :=
  c = ' ' || c = '\t' || c = '\n' || c = '\r' ||
  c = Char.ofNat 11 || c = Char.ofNat 12

/-- The suffix after the first `'"'` of a character list, if any. -/
def afterQuote : List Char → Option (List Char)
  | [] => none
  | '"' :: r => some r
  | _ :: r => afterQuote r

/-- The first `replace` of `getFieldName` (line 60 of `service.js`):
`/"([\s\S]*?)"/g` removes each lazily matched double-quoted span; an
unmatched trailing quote is left in place.  The fuel decreases once per
retained or removed span while the list loses at least one character, so
the list length is always enough fuel. -/
def stripQuotedF : Nat → List Char → List Char
  | _, [] => []
  | 0, rest => rest
  | fuel + 1, '"' :: rest =>
      match afterQuote rest with
      | some after => stripQuotedF fuel after
      | none => '"' :: rest
  | fuel + 1, c :: rest => c :: stripQuotedF fuel rest

def stripQuoted (cs : List Char) : List Char :=
  stripQuotedF cs.length cs

/-- Scanner state for the second `replace` of `getFieldName`:
at a line start buffering a (lazy) whitespace run, inside a matched `#`
comment, or in the remainder of a non-comment line. -/
inductive RemState where
  | lineStart (buf : List Char)
  | comment
  | norm

/-- The second `replace` of `getFieldName` (line 61 of `service.js`):
`/^[\s]*?#.*\n?/gm`.  A match starts at a line start: a lazy `\s` run
(which, since `\s` matches `\n`, may span blank lines) followed by `#`,
the rest of that line and its newline are removed; on a non-`#`
non-whitespace character the buffered run is emitted unchanged and the
scan continues to the next line start.  One character is consumed per
unit of fuel, so the list length is always enough fuel. -/
def removeCommentsF : Nat → RemState → List Char → List Char
  | _, .lineStart buf, [] => buf.reverse
  | _, _, [] => []
  | 0, _, rest => rest
  | fuel + 1, .lineStart buf, c :: r =>
      if c = '#' then removeCommentsF fuel .comment r
      else if jsWS c then removeCommentsF fuel (.lineStart (c :: buf)) r
      else buf.reverse ++ c :: removeCommentsF fuel .norm r
  | fuel + 1, .comment, c :: r =>
      if c = '\n' then removeCommentsF fuel (.lineStart []) r
      else removeCommentsF fuel .comment r
  | fuel + 1, .norm, c :: r =>
      if c = '\n' then '\n' :: removeCommentsF fuel (.lineStart []) r
      else c :: removeCommentsF fuel .norm r

def removeComments (cs : List Char) : List Char :=
  removeCommentsF cs.length (.lineStart []) cs

/-- JavaScript `String.prototype.trim` on a character list. -/
def trimWS (cs : List Char) : List Char :=
  ((cs.dropWhile jsWS).reverse.dropWhile jsWS).reverse

/-- `split(/[(:]/g)[0]`: the prefix before the first `(` or `:`. -/
def beforeParenColon (cs : List Char) : List Char :=
  cs.takeWhile (fun c => c != '(' && c != ':')

/-- `getFieldName` (lines 57–64 of `service.js`): strip quoted spans,
strip `#` line comments, trim, and take the prefix before the first `(`
or `:`. -/
def getFieldName (decl : String) : String :=
  String.mk (beforeParenColon (trimWS (removeComments (stripQuoted decl.data))))

/-- A service descriptor as `generateGraphQLSchema` and `createLoaders`
consume it from the registry snapshot.  `version` is a number or a
string; `settingsGraphql` is `service.settings.graphql`. -/
inductive ServiceVersion where
  | none
  | num (n : Nat)
  | str (s : String)

/-- `getServiceName` (lines 72–85 of `service.js`): `fullName` when it is
truthy, else the version-qualified name, else the plain name. -/
def serviceNameOf (fullName : Option String) (version : ServiceVersion)
    (name : String) : String :=
  match fullName with
  | some fn => if fn.isEmpty then versionedName version name else fn
  | none => versionedName version name
where
  versionedName : ServiceVersion → String → String
  | .none, n => n
  | .num v, n => "v" ++ toString v ++ "." ++ n
  | .str v, n => v ++ "." ++ n

/-- `getResolverActionName` (lines 93–99): qualify a bare action name
with the service name unless it already contains a dot. -/
def getResolverActionName (service action : String) : String :=
  if action.data.contains '.' then action else service ++ "." ++ action

/-- The object literal `createAsyncIteratorResolver` would return (lines
211–223 of `service.js`), defunctionalized: the `subscribe` side is an
iterator over the pub/sub stream for `tags`, optionally filtered through
`filterAction`; the `resolve` side calls `action`. -/
structure SubscriptionResolver where
  action : String
  tags : List String
  filterAction : Option String

/-- The identifiers bound in the scope of `createAsyncIteratorResolver`
(its parameters; the enclosing module scope binds only the requires,
`mixinOptions` and `serviceSchema`, none of them named `params`). -/
def subResolverScope : List String := ["actionName", "tags", "filter", "this"]

/-- `createAsyncIteratorResolver` (lines 208–224 of `service.js`).  Line
210 is `console.log(params)`, and `params` is not bound anywhere in
scope: in strict mode the call raises `ReferenceError` before the
resolver object of lines 211–223 is built. -/
def createAsyncIteratorResolver (actionName : String) (tags : List String)
    (filterAction : Option String) : Except JsError SubscriptionResolver :=
  if "params" ∈ subResolverScope then
    .ok { action := actionName, tags := tags, filterAction := filterAction }
  else
    .error (referenceError "params")

/-- A raw resolver entry in `service.settings.graphql.resolvers`: either a
plain object carrying a non-null `action` together with the optional
resolver options (the shape `createServiceResolvers` dispatches on at
line 109), or anything else (enum maps and other passthrough values). -/
inductive RawResolver where
  | action (a : String) (d : ActionResolverDef)
  | raw (v : JVal)

/-- A synthesized entry of the composed resolver map: an action resolver
closure defunctionalized to the `(actionName, def)` pair it captures, a
subscription resolver, or a passthrough value copied verbatim. -/
inductive ResolverEntry where
  | actionRes (actionName : String) (d : ActionResolverDef)
  | subscriptionRes (r : SubscriptionResolver)
  | raw (v : JVal)

/-- Type name → field name → resolver entry, in insertion order. -/
abbrev ResolverMap : Type := List (String × List (String × ResolverEntry))

/-- The service-level GraphQL bundle `service.settings.graphql` (lines
268–317).  Each declaration group is a string or array of strings in the
source; both are modelled as a list (`[]` for an absent key, which
contributes nothing exactly as the truthiness guards do). -/
structure ServiceGqlDef where
  query : List String := []
  mutation : List String := []
  subscription : List String := []
  type : List String := []
  interface : List String := []
  union : List String := []
  enum : List String := []
  input : List String := []
  resolvers : List (String × List (String × RawResolver)) := []

/-- An action-level `graphql` binding (lines 323–385): declaration groups
plus the subscription options `tags` and `filter`. -/
structure ActionGqlDef where
  query : List String := []
  mutation : List String := []
  subscription : List String := []
  tags : List String := []
  filter : Option String := none
  type : List String := []
  interface : List String := []
  union : List String := []
  enum : List String := []
  input : List String := []

structure ActionDesc where
  name : String
  graphql : Option ActionGqlDef := none

/-- A registry service descriptor as `generateGraphQLSchema` and
`createLoaders` consume it. -/
structure Service where
  name : String
  version : ServiceVersion := .none
  fullName : Option String := none
  settingsGraphql : Option ServiceGqlDef := none
  actions : List ActionDesc := []

def getServiceName (svc : Service) : String :=
  serviceNameOf svc.fullName svc.version svc.name

/-- `createServiceResolvers` (lines 107–122): plain objects with an
`action` become action resolvers under the qualified action name,
anything else is copied through. -/
def createServiceResolvers (serviceName : String)
    (fields : List (String × RawResolver)) : List (String × ResolverEntry) :=
  fields.map (fun kv =>
    (kv.1, match kv.2 with
      | .action a d => .actionRes (getResolverActionName serviceName a) d
      | .raw v => .raw v))

/-- `_.merge` of two field maps: existing keys keep their positions and
are overwritten by the update, new keys are appended in update order.
(`_.merge` would merge passthrough plain objects recursively; resolver
entries are functions in the source and are overwritten wholesale, which
is the behaviour modelled here.) -/
def mergeAssoc {α : Type} (xs ys : List (String × α)) : List (String × α) :=
  xs.map (fun kv => (kv.1, (alookup ys kv.1).getD kv.2)) ++
    ys.filter (fun kv => (alookup xs kv.1).isNone)

/-- `_.merge(resolvers, resolver)` of two resolver maps (line 389),
merging field maps type by type. -/
def mergeRM (a b : ResolverMap) : ResolverMap :=
  a.map (fun kv =>
      (kv.1, match alookup b kv.1 with
        | some t => mergeAssoc kv.2 t
        | none => kv.2)) ++
    b.filter (fun kv => (alookup a kv.1).isNone)

/-- `resolver[ty][f] = e` with on-demand creation of `resolver[ty]`
(lines 327–335 and analogues). -/
def rmSetField (m : ResolverMap) (ty f : String) (e : ResolverEntry) :
    ResolverMap :=
  match alookup m ty with
  | some fieldsM => setKey m ty (setKey fieldsM f e)
  | none => m ++ [(ty, [(f, e)])]

/-- The accumulators of one `generateGraphQLSchema` pass (lines 250–259):
the eight declaration lists, the global resolver map, and the
`processedServices` set (as the list of names in insertion order). -/
structure SchemaAcc where
  queries : List String := []
  mutations : List String := []
  subscriptions : List String := []
  types : List String := []
  interfaces : List String := []
  unions : List String := []
  enums : List String := []
  inputs : List String := []
  resolvers : ResolverMap := []
  processed : List String := []

/-- Lines 268–317: fold one service-level bundle into the accumulators.
The resolver fold is `acc[name] = _.merge(acc[name] || {},
createServiceResolvers(serviceName, resolver))` per declared type. -/
def processGlobalDef (serviceName : String) (acc : SchemaAcc)
    (g : ServiceGqlDef) : SchemaAcc :=
  { acc with
    queries := acc.queries ++ g.query
    mutations := acc.mutations ++ g.mutation
    subscriptions := acc.subscriptions ++ g.subscription
    types := acc.types ++ g.type
    interfaces := acc.interfaces ++ g.interface
    unions := acc.unions ++ g.union
    enums := acc.enums ++ g.enum
    inputs := acc.inputs ++ g.input
    resolvers := g.resolvers.foldl
      (fun m tkv =>
        setKey m tkv.1
          (mergeAssoc ((alookup m tkv.1).getD [])
            (createServiceResolvers serviceName tkv.2)))
      acc.resolvers }

/-- Lines 326–336: register each action-level query declaration and its
resolver (`createActionResolver(action.name)` with the default options). -/
def addActionQueries (actionName : String) (st : SchemaAcc × ResolverMap)
    (qs : List String) : SchemaAcc × ResolverMap :=
  qs.foldl
    (fun st q =>
      ({ st.1 with queries := st.1.queries ++ [q] },
        rmSetField st.2 "Query" (getFieldName q) (.actionRes actionName {})))
    st

/-- Lines 338–348, the mutation analogue of `addActionQueries`. -/
def addActionMutations (actionName : String) (st : SchemaAcc × ResolverMap)
    (ms : List String) : SchemaAcc × ResolverMap :=
  ms.foldl
    (fun st m =>
      ({ st.1 with mutations := st.1.mutations ++ [m] },
        rmSetField st.2 "Mutation" (getFieldName m) (.actionRes actionName {})))
    st

/-- Lines 350–364: register each subscription declaration.  The
declaration is pushed first; then `createAsyncIteratorResolver` is
invoked, which raises (see its definition), aborting the pass. -/
def addActionSubs (actionName : String) (tags : List String)
    (filterAction : Option String) :
    SchemaAcc × ResolverMap → List String → Except JsError (SchemaAcc × ResolverMap)
  | st, [] => .ok st
  | (acc, rm), s :: rest =>
      let acc' := { acc with subscriptions := acc.subscriptions ++ [s] }
      match createAsyncIteratorResolver actionName tags filterAction with
      | .error e => .error e
      | .ok r =>
          addActionSubs actionName tags filterAction
            (acc', rmSetField rm "Subscription" (getFieldName s) (.subscriptionRes r))
            rest

/-- Lines 323–386: process one action's `graphql` binding. -/
def processAction (st : SchemaAcc × ResolverMap) (a : ActionDesc) :
    Except JsError (SchemaAcc × ResolverMap) :=
  match a.graphql with
  | none => .ok st
  | some d =>
      let st1 := addActionQueries a.name st d.query
      let st2 := addActionMutations a.name st1 d.mutation
      match addActionSubs a.name d.tags d.filter st2 d.subscription with
      | .error e => .error e
      | .ok st3 =>
          .ok ({ st3.1 with
                  types := st3.1.types ++ d.type
                  interfaces := st3.1.interfaces ++ d.interface
                  unions := st3.1.unions ++ d.union
                  enums := st3.1.enums ++ d.enum
                  inputs := st3.1.inputs ++ d.input }, st3.2)

def processActionsList :
    SchemaAcc × ResolverMap → List ActionDesc → Except JsError (SchemaAcc × ResolverMap)
  | st, [] => .ok st
  | st, a :: rest =>
      match processAction st a with
      | .error e => .error e
      | .ok st' => processActionsList st' rest

/-- Lines 261–391 for a single non-skipped service: the service-level
bundle, then the per-action definitions into a local `resolver` map that
is `_.merge`d into the global map when non-empty. -/
def processService (acc : SchemaAcc) (svc : Service) : Except JsError SchemaAcc :=
  let serviceName := getServiceName svc
  let acc1 :=
    match svc.settingsGraphql with
    | some g => processGlobalDef serviceName acc g
    | none => acc
  match processActionsList (acc1, []) svc.actions with
  | .error e => .error e
  | .ok st =>
      .ok { st.1 with
              resolvers :=
                if st.2.isEmpty then st.1.resolvers
                else mergeRM st.1.resolvers st.2 }

/-- The `services.forEach` of lines 261–391 with the dedup of lines
264–266: a service whose composed name was already processed is skipped
entirely. -/
def collectAux : SchemaAcc → List Service → Except JsError SchemaAcc
  | acc, [] => .ok acc
  | acc, svc :: rest =>
      let n := getServiceName svc
      if n ∈ acc.processed then collectAux acc rest
      else
        match processService { acc with processed := acc.processed ++ [n] } svc with
        | .error e => .error e
        | .ok acc' => collectAux acc' rest

def collectSchema (baseResolvers : ResolverMap) (services : List Service) :
    Except JsError SchemaAcc :=
  collectAux { resolvers := baseResolvers } services

/-- A root-type block of the synthesized schema document (lines 404–426;
the insignificant template-literal indentation is normalized). -/
def wrapRoot (rootName : String) (decls : List String) : String :=
  if decls.isEmpty then ""
  else "\ntype " ++ rootName ++ " \x7b\n" ++ String.intercalate "\n" decls ++ "\n\x7d\n"

def joinFragments (decls : List String) : String :=
  if decls.isEmpty then "" else "\n" ++ String.intercalate "\n" decls ++ "\n"

/-- Lines 393–459: when any declaration group is non-empty, one schema
source document string is appended to `typeDefs`. -/
def assembleTypeDefs (acc : SchemaAcc) : List String :=
  if acc.queries.isEmpty && acc.mutations.isEmpty && acc.subscriptions.isEmpty
      && acc.types.isEmpty && acc.interfaces.isEmpty && acc.unions.isEmpty
      && acc.enums.isEmpty && acc.inputs.isEmpty then
    []
  else
    [wrapRoot "Query" acc.queries ++ wrapRoot "Mutation" acc.mutations ++
      wrapRoot "Subscription" acc.subscriptions ++
      joinFragments acc.types ++ joinFragments acc.interfaces ++
      joinFragments acc.unions ++ joinFragments acc.enums ++
      joinFragments acc.inputs]

/-- Lines 462–469: any failure of the pass is wrapped into
`MoleculerServerError("Unable to compile GraphQL schema", 500,
"UNABLE_COMPILE_GRAPHQL_SCHEMA", { err })`. -/
def wrapCompositionError (e : JsError) : JsError :=
  .mk "MoleculerServerError" "Unable to compile GraphQL schema" 500
    "UNABLE_COMPILE_GRAPHQL_SCHEMA" .null (some e)

/-- `generateGraphQLSchema(services)` (lines 232–470).  The external
`makeExecutableSchema` is the parameter `compile` (returning an opaque
schema identifier); `baseTypeDefs`/`baseResolvers` are the
`mixinOptions.typeDefs`/`mixinOptions.resolvers` seeds. -/
def generateGraphQLSchema (compile : List String → ResolverMap → Except JsError Nat)
    (baseTypeDefs : List String) (baseResolvers : ResolverMap)
    (services : List Service) : Except JsError Nat :=
  match collectSchema baseResolvers services with
  | .error e => .error (wrapCompositionError e)
  | .ok acc =>
      match compile (baseTypeDefs ++ assembleTypeDefs acc) acc.resolvers with
      | .error e => .error (wrapCompositionError e)
      | .ok s => .ok s

/-- A batching unit of the loader registry, defunctionalized to the data
the `DataLoader` batch closure of lines 580–603 captures: the qualified
action name, the first root-param target (`actionParam`), the static
`params`, and the meta-to-param object reduced against the context's
meta. -/
structure LoaderSpec where
  action : String
  actionParam : String
  params : JVal
  metaObj : JVal

def loaderFor (meta : JVal) (serviceName a : String) (d : ActionResolverDef)
    (actionParam : String) : LoaderSpec :=
  { action := getResolverActionName serviceName a
    actionParam := actionParam
    params := d.params
    metaObj := d.metaParams.foldl (fun acc kv => jset acc kv.2 (jget meta kv.1))
      (.obj []) }

/-- The parameter object of the single remote call a batching unit issues
for one tick's `keys` (lines 582–602):
`_.defaultsDeep({ [actionParam]: keys }, params, metaReduce)`. -/
def batchCallParams (ls : LoaderSpec) (keys : JVal) : JVal :=
  defaultsDeep3 (.obj [(ls.actionParam, keys)]) ls.params ls.metaObj

/-- JavaScript object spread `{...a, ...b}`: keys of `a` keep their
positions (values overridden by `b`), keys only in `b` are appended. -/
def objAssign {α : Type} (a b : List (String × α)) : List (String × α) :=
  a.map (fun kv => (kv.1, (alookup b kv.1).getD kv.2)) ++
    b.filter (fun kv => (alookup a kv.1).isNone)

/-- One field resolver of lines 562–608: when the entry is a plain
object whose `dataLoader` is truthy and whose first `rootParams` value
(`actionParam`, `Object.values(rootParams)[0]`) is truthy, create a
`DataLoader` for the qualified action name unless this type's
accumulator already has one. -/
def loaderFieldStep (meta : JVal) (serviceName : String)
    (fieldAccum : List (String × LoaderSpec)) (fkv : String × RawResolver) :
    List (String × LoaderSpec) :=
  match fkv.2 with
  | .action a d =>
      match d.rootParams.map Prod.snd with
      | actionParam :: _ =>
          if d.dataLoader && !actionParam.isEmpty then
            let n := getResolverActionName serviceName a
            if (alookup fieldAccum n).isNone then
              fieldAccum ++ [(n, loaderFor meta serviceName a d actionParam)]
            else fieldAccum
          else fieldAccum
      | [] => fieldAccum
  | .raw _ => fieldAccum

/-- Lines 560–615: the loaders of one type's resolvers, spread onto the
per-service accumulator (`{...resolverAccum, ...resolverLoaders}`). -/
def loaderTypeStep (meta : JVal) (serviceName : String)
    (resolverAccum : List (String × LoaderSpec))
    (tkv : String × List (String × RawResolver)) : List (String × LoaderSpec) :=
  objAssign resolverAccum (tkv.2.foldl (loaderFieldStep meta serviceName) [])

/-- Lines 553–621: one service's loaders, spread onto the global
accumulator (`{...serviceAccum, ...typeLoaders}`); services without
`settings.graphql` contribute nothing. -/
def loaderServiceStep (meta : JVal)
    (serviceAccum : List (String × LoaderSpec)) (svc : Service) :
    List (String × LoaderSpec) :=
  match svc.settingsGraphql with
  | some g =>
      objAssign serviceAccum
        (g.resolvers.foldl (loaderTypeStep meta (getServiceName svc)) [])
  | none => serviceAccum

/-- `createLoaders(ctx, services)` (lines 552–622).  Note: the service
list is NOT deduplicated here, and plain objects without an `action` are
modelled under `RawResolver.raw` (no loader; the source would only
differ on the pathological shape `{dataLoader, rootParams}` with no
`action`, on which it throws a `TypeError`). -/
def createLoaders (meta : JVal) (services : List Service) :
    List (String × LoaderSpec) :=
  services.foldl (loaderServiceStep meta) []

/-- The mutable service state the rebuild protocol touches (`created()`
initializes all of it, lines 625–630): the staleness flag, the installed
Apollo server and request handler (as opaque generation ids), a
generation counter for installed schemas, and a count of rebuild-body
executions (rebuild attempts). -/
structure LifeState where
  shouldUpdateGraphqlSchema : Bool
  apolloServer : Option Nat
  graphqlHandler : Option Nat
  generation : Nat
  rebuildCount : Nat

/-- `invalidateGraphQLSchema` (lines 48–50), the `$services.changed`
handler: set the staleness flag, nothing else. -/
def invalidateGraphQLSchema (s : LifeState) : LifeState :=
  { s with shouldUpdateGraphqlSchema := true }

/-- Whether a call to `prepareGraphQLSchema` runs the rebuild body rather
than returning early (the guard of lines 473–476). -/
def demandTriggersRebuild (s : LifeState) : Bool :=
  s.shouldUpdateGraphqlSchema || s.graphqlHandler.isNone

/-- `prepareGraphQLSchema` (lines 472–544) run sequentially (no
interleaving): early return when the schema is current; otherwise run the
rebuild body, whose outcome `gen` abstracts pubsub creation, the registry
snapshot, `generateGraphQLSchema` and server/handler installation.  On
failure the error is logged and rethrown with no state update — in
particular `shouldUpdateGraphqlSchema` is NOT cleared (it is only set to
`false` at line 535, after a successful installation). -/
def prepareGraphQLSchema (gen : Except JsError Nat) (s : LifeState) :
    LifeState × Option JsError :=
  if !s.shouldUpdateGraphqlSchema && s.graphqlHandler.isSome then (s, none)
  else
    match gen with
    | .error e => ({ s with rebuildCount := s.rebuildCount + 1 }, some e)
    | .ok g =>
        ({ shouldUpdateGraphqlSchema := false, apolloServer := some g,
           graphqlHandler := some g, generation := g,
           rebuildCount := s.rebuildCount + 1 }, none)

/-- Program counter of one concurrent demand executing
`prepareGraphQLSchema`: before the staleness check, suspended at
`await this.apolloServer.stop()` (line 484, the only suspension point of
the routine), or finished. -/
inductive TaskPC where
  | start
  | afterStop
  | done
deriving DecidableEq

/-- The synchronous rebuild body (lines 487–539) on the success path:
generate, install server/handler, clear the staleness flag, broadcast. -/
def doRebuild (s : LifeState) : LifeState :=
  { shouldUpdateGraphqlSchema := false
    apolloServer := some (s.generation + 1)
    graphqlHandler := some (s.generation + 1)
    generation := s.generation + 1
    rebuildCount := s.rebuildCount + 1 }

/-- One cooperative step of a demand.  From `start`: the early-return
check of lines 473–476; then, when a server is installed, the demand
suspends at `await this.apolloServer.stop()` — under JavaScript's
event-loop semantics an `await` always yields — otherwise the rest of
the routine runs synchronously to completion.  From `afterStop`: the
rebuild body runs atomically (it contains no further `await` before the
flag is cleared). -/
def taskStep (s : LifeState) : TaskPC → LifeState × TaskPC
  | .start =>
      if !s.shouldUpdateGraphqlSchema && s.graphqlHandler.isSome then (s, .done)
      else if s.apolloServer.isSome then (s, .afterStop)
      else (doRebuild s, .done)
  | .afterStop => (doRebuild s, .done)
  | .done => (s, .done)

/-- Run two concurrent demands under an explicit schedule (`true` steps
the first demand, `false` the second); a finished demand ignores further
steps. -/
def runSched : LifeState × TaskPC × TaskPC → List Bool → LifeState × TaskPC × TaskPC
  | st, [] => st
  | (s, p1, p2), b :: rest =>
      if b then
        let r := taskStep s p1
        runSched (r.1, r.2, p2) rest
      else
        let r := taskStep s p2
        runSched (r.1, p1, r.2) rest

/-- A STALE state with a previously installed server and handler: the
state after a successful rebuild followed by a topology-change signal. -/
def staleWithServer : LifeState :=
  { shouldUpdateGraphqlSchema := true, apolloServer := some 1,
    graphqlHandler := some 1, generation := 1, rebuildCount := 0 }

/-- How many rebuild attempts a demand at this program counter can still
perform (used to bound the attempt count over all schedules). -/
def pcBound : TaskPC → Nat
  | .done => 0
  | _ => 1

/-- Merge of optional top-level slots with destination precedence:
both present → deep merge, otherwise whichever is present. -/
def optDD : Option JVal → Option JVal → Option JVal
  | some v, some w => some (ddMerge v w)
  | some v, none => some v
  | none, o => o

/-- Modelled from claim C3's text: the parameter object built by merging
with precedence (highest first) the arg-to-param mappings, then the
root-to-param mappings, then the meta-to-param mappings, then
deep-defaulting against the static `params` — with no other
contribution. -/
def specDirectParams (d : ActionResolverDef) (root args meta : JVal) : JVal :=
  let pArg := d.argParams.foldl (fun p kv => jset p kv.2 (jget args kv.1)) (.obj [])
  let pRoot := d.rootParams.foldl (fun p kv => jset p kv.2 (jget root kv.1)) (.obj [])
  let pMeta := d.metaParams.foldl (fun p kv => jset p kv.2 (jget meta kv.1)) (.obj [])
  ddMerge (ddMerge (ddMerge pArg pRoot) pMeta) d.params

/-- Modelled from claim C9's text: some service-level resolver is a
BatchedCall (dataLoader) targeting action `n` and declares a non-empty
root-key mapping (a mapping object with at least one entry). -/
def claimBatchedTargets (services : List Service) (n : String) : Bool :=
  services.any (fun svc =>
    match svc.settingsGraphql with
    | some g =>
        g.resolvers.any (fun tkv =>
          tkv.2.any (fun fkv =>
            match fkv.2 with
            | .action a d =>
                d.dataLoader && !d.rootParams.isEmpty &&
                  (getResolverActionName (getServiceName svc) a == n)
            | .raw _ => false))
    | none => false)

/-- The condition under which `createLoaders` wires a field resolver to a
loader for action `n`: `dataLoader` truthy and the FIRST root-param
target value truthy (a non-empty string). -/
def fieldQualifies (serviceName n : String) (fkv : String × RawResolver) : Bool :=
  match fkv.2 with
  | .action a d =>
      d.dataLoader &&
        (match d.rootParams.map Prod.snd with
         | ap :: _ => !ap.isEmpty
         | [] => false) &&
        (getResolverActionName serviceName a == n)
  | .raw _ => false

/-- Amended claim C9's wiring condition over a whole service list. -/
def specWiredAction (services : List Service) (n : String) : Bool :=
  services.any (fun svc =>
    match svc.settingsGraphql with
    | some g =>
        g.resolvers.any (fun tkv => tkv.2.any (fieldQualifies (getServiceName svc) n))
    | none => false)

/-- An execution context whose remote call echoes back the parameter
object it received and whose loaders return the key unchanged — used to
observe exactly what a resolver dispatches. -/
def echoCtx : ResolverCtx :=
  { meta := .null, callResult := fun _ p => .ok p, loaders := fun _ v => v }

/-- A service whose only resolver is a dataLoader resolver with the
non-empty root-param mapping `{ id: "" }` (first target value an empty
string), targeting `posts.list`. -/
def emptyTargetService : Service :=
  { name := "posts"
    settingsGraphql := some
      { resolvers :=
          [("Author",
            [("books", .action "list"
              { dataLoader := true, rootParams := [("id", "")] })])] } }

/-- An execution context whose remote call always fails with `e`. -/
def failingCtx (e : JsError) : ResolverCtx :=
  { meta := .null, callResult := fun _ _ => .error e, loaders := fun _ v => v }

/-- A sample broker error carrying a truthy `ctx` back-reference. -/
def sampleErr : JsError :=
  .mk "MoleculerError" "boom" 500 "SOME_ERROR" (.num 7) none

/-! ## Theorems -/

theorem taskStep_bound (s : LifeState) (p : TaskPC) :
    (taskStep s p).1.rebuildCount + pcBound (taskStep s p).2 ≤
      s.rebuildCount + pcBound p := by
  cases p with
  | start =>
      simp only [taskStep]
      split
      · simp [pcBound]
      · split
        · simp [pcBound]
        · simp [pcBound, doRebuild]
  | afterStop => simp [taskStep, pcBound, doRebuild]
  | done => simp [taskStep, pcBound]

theorem runSched_bound :
    ∀ (sched : List Bool) (s : LifeState) (p1 p2 : TaskPC),
      (runSched (s, p1, p2) sched).1.rebuildCount ≤
        s.rebuildCount + pcBound p1 + pcBound p2 := by
  intro sched
  induction sched with
  | nil => intro s p1 p2; simp only [runSched]; omega
  | cons b rest ih =>
      intro s p1 p2
      cases b
      · have h1 := ih (taskStep s p2).1 p1 (taskStep s p2).2
        have h2 := taskStep_bound s p2
        have hr : runSched (s, p1, p2) (false :: rest) =
            runSched ((taskStep s p2).1, p1, (taskStep s p2).2) rest := rfl
        rw [hr]; omega
      · have h1 := ih (taskStep s p1).1 (taskStep s p1).2 p2
        have h2 := taskStep_bound s p1
        have hr : runSched (s, p1, p2) (true :: rest) =
            runSched ((taskStep s p1).1, (taskStep s p1).2, p2) rest := rfl
        rw [hr]; omega

/-- Claim C1 is FALSE on the code: `prepareGraphQLSchema` has no
single-flight guard.  From a STALE state with a previously installed
server (so the routine suspends at `await this.apolloServer.stop()`), two
concurrent demands that both pass the staleness check before either
rebuild completes each execute their own rebuild attempt: under the
interleaved schedule both demands finish and the number of rebuild
attempts is 2, not exactly one. -/
theorem C1_counterexample :
    (runSched (staleWithServer, .start, .start) [true, false, true, false]).1.rebuildCount = 2 ∧
    (runSched (staleWithServer, .start, .start) [true, false, true, false]).2.1 = .done ∧
    (runSched (staleWithServer, .start, .start) [true, false, true, false]).2.2 = .done ∧
    (runSched (staleWithServer, .start, .start) [true, false, true, false]).1.rebuildCount ≠ 1 := by
  refine ⟨rfl, rfl, rfl, by decide⟩

/-- Claim C1 as amended: while STALE with an installed server there is no
single-flight guard — every demand that passes the staleness check before
a rebuild completes runs its own rebuild attempt, so with 2 concurrent
demands the number of attempts depends on the interleaving: 2 under the
interleaved schedule, 1 when the demands run back-to-back (the second
early-returns on the cleared flag), and never more than one attempt per
demand (at most 2) under any schedule. -/
theorem C1_amended :
    (runSched (staleWithServer, .start, .start) [true, false, true, false]).1.rebuildCount = 2 ∧
    (runSched (staleWithServer, .start, .start) [true, true, false]).1.rebuildCount = 1 ∧
    (runSched (staleWithServer, .start, .start) [true, true, false]).2.1 = .done ∧
    (runSched (staleWithServer, .start, .start) [true, true, false]).2.2 = .done ∧
    ∀ sched : List Bool,
      (runSched (staleWithServer, .start, .start) sched).1.rebuildCount ≤ 2 := by
  refine ⟨rfl, rfl, rfl, rfl, fun sched => ?_⟩
  have h := runSched_bound sched staleWithServer .start .start
  simpa [staleWithServer, pcBound] using h

theorem all_takeWhile (p : Char → Bool) (l : List Char) :
    (l.takeWhile p).all p = true := by
  rw [List.all_eq_true]
  intro c hc
  exact List.mem_takeWhile_imp hc

/-- Claim C4: the derived field name is the prefix before the first `(`
or `:` after removing double-quoted literals and `#` line comments and
trimming — so it never contains a `(` or `:` itself; in particular
`"desc" field(arg: Int): String` derives `field`. -/
theorem C4_field_name :
    getFieldName "\"desc\" field(arg: Int): String" = "field" ∧
    getFieldName "\"Returns one user\"\n# internal note\nuser(id: Int!): User" = "user" ∧
    (∀ decl : String,
      getFieldName decl =
        String.mk (beforeParenColon (trimWS (removeComments (stripQuoted decl.data))))) ∧
    ∀ decl : String,
      (getFieldName decl).data.all (fun c => c != '(' && c != ':') = true :=
  ⟨rfl, rfl, fun _ => rfl, fun decl =>
    all_takeWhile (fun c => c != '(' && c != ':')
      (trimWS (removeComments (stripQuoted decl.data)))⟩

/-- Claim C7 names a CODE BUG: `createAsyncIteratorResolver` never
returns the subscribe/resolve resolver its own doc comment promises —
line 210 (`console.log(params)`) references the unbound identifier
`params` and raises a `ReferenceError` for every input before the
resolver object of lines 211–223 is built. -/
theorem C7_subscription_bug :
    createAsyncIteratorResolver "posts.updated" ["posts"] none =
        .error (referenceError "params") ∧
    createAsyncIteratorResolver "posts.updated" ["posts"] (some "posts.filterChanged") =
        .error (referenceError "params") ∧
    (∀ (a : String) (tags : List String) (f : Option String),
      createAsyncIteratorResolver a tags f = .error (referenceError "params")) ∧
    generateGraphQLSchema (fun _ _ => .ok 0) [] []
        [{ name := "posts",
           actions := [{ name := "posts.changed",
                         graphql := some { subscription := ["postChanged: Post"],
                                           tags := ["posts"] } }] }] =
      .error (wrapCompositionError (referenceError "params")) :=
  ⟨rfl, rfl, fun _ _ _ => rfl, rfl⟩

/-- Claim C10: a resolver created with the dataLoader flag but an empty
root-to-param mapping resolves to null on every invocation — for every
root, args and execution context (so no loader and no remote call can
influence the result). -/
theorem C10_batched_no_rootkeys_null (actionName : String)
    (d : ActionResolverDef) (rctx : ResolverCtx) (root args : JVal)
    (hdl : d.dataLoader = true) (hrp : d.rootParams = []) :
    runActionResolver actionName d rctx root args = .ok .null := by
  simp [runActionResolver, hdl, hrp, isNullish]

theorem C10_witness :
    runActionResolver "author.books" { dataLoader := true } echoCtx
        (.obj [("id", .num 3)]) (.obj []) = .ok .null :=
  C10_batched_no_rootkeys_null "author.books" { dataLoader := true } echoCtx
    (.obj [("id", .num 3)]) (.obj []) rfl rfl

/-- Claim C5 is FALSE on one edge: when `root` itself is falsy but not
nullish (here `false`), `root && _.get(root, firstRootKey)`
short-circuits to `root`, which is neither nullish nor an array and so is
loaded as a single value — although the value at the declared root key
`id` of such a root is absent, for which the claim requires resolving
null without any load. -/
theorem C5_counterexample :
    jget (.bool false) "id" = .undef ∧
    runActionResolver "author.books"
        { dataLoader := true, rootParams := [("id", "x")] } echoCtx
        (.bool false) (.obj []) = .ok (.bool false) ∧
    runActionResolver "author.books"
        { dataLoader := true, rootParams := [("id", "x")] } echoCtx
        (.bool false) (.obj []) ≠ .ok .null := by
  refine ⟨rfl, rfl, fun h => ?_⟩
  have h2 : (Except.ok (JVal.bool false) : Except JsError JVal) = .ok .null := h
  simp at h2

/-- Claim C5 as amended: for a BatchedCall resolver with a declared
(non-empty-string) root key, let the looked-up value be
`root && _.get(root, key)` — i.e. a falsy root stands in for the value
itself.  When that value is nullish the resolver yields null for every
execution context (no loader, no remote call); an array value is mapped
in input order through the context's loader entry for the action; any
other value is loaded singly. -/
theorem C5_batched_resolution (actionName : String) (d : ActionResolverDef)
    (rctx : ResolverCtx) (root args : JVal) (k p : String)
    (rest : List (String × String))
    (hdl : d.dataLoader = true) (hrp : d.rootParams = (k, p) :: rest)
    (hk : k.isEmpty = false) :
    (isNullish (if truthy root then jget root k else root) = true →
        ∀ rctx2 : ResolverCtx,
          runActionResolver actionName d rctx2 root args = .ok .null) ∧
    (∀ xs : List JVal, (if truthy root then jget root k else root) = .arr xs →
        runActionResolver actionName d rctx root args =
          .ok (.arr (xs.map (rctx.loaders actionName)))) ∧
    (isNullish (if truthy root then jget root k else root) = false →
      (∀ xs : List JVal, (if truthy root then jget root k else root) ≠ .arr xs) →
        runActionResolver actionName d rctx root args =
          .ok (rctx.loaders actionName (if truthy root then jget root k else root))) := by
  refine ⟨?_, ?_, ?_⟩
  · intro hnull rctx2
    simp [runActionResolver, hdl, hrp, hk, hnull]
  · intro xs harr
    simp [runActionResolver, hdl, hrp, hk, harr, isNullish]
  · intro hnn hna
    cases hv : (if truthy root then jget root k else root) with
    | undef => rw [hv] at hnn; simp [isNullish] at hnn
    | null => rw [hv] at hnn; simp [isNullish] at hnn
    | arr xs => exact absurd hv (hna xs)
    | bool b => simp [runActionResolver, hdl, hrp, hk, hv, isNullish]
    | num n => simp [runActionResolver, hdl, hrp, hk, hv, isNullish]
    | str s => simp [runActionResolver, hdl, hrp, hk, hv, isNullish]
    | obj fs => simp [runActionResolver, hdl, hrp, hk, hv, isNullish]

theorem C5_witness :
    runActionResolver "author.books"
        { dataLoader := true, rootParams := [("id", "x")] } echoCtx
        (.obj [("id", .arr [.num 1, .num 2])]) (.obj []) =
      .ok (.arr [.num 1, .num 2]) := by
  have h := (C5_batched_resolution "author.books"
      { dataLoader := true, rootParams := [("id", "x")] } echoCtx
      (.obj [("id", .arr [.num 1, .num 2])]) (.obj []) "id" "x" [] rfl rfl rfl).2.1
  have h2 := h [.num 1, .num 2] rfl
  simpa [echoCtx] using h2

/-- Claim C6: when a DirectCall resolver's backing remote call fails, the
null-on-error flag makes the resolver resolve null and swallow the
failure; without the flag the same failure is rethrown with the error's
`ctx` back-reference cleared (the propagated error's `ctx` is never
truthy). -/
theorem C6_null_on_error (actionName : String) (d : ActionResolverDef)
    (rctx : ResolverCtx) (root args : JVal) (e : JsError)
    (hdl : d.dataLoader = false)
    (hcall : rctx.callResult actionName (directCallParams d root args rctx.meta) =
      .error e) :
    (d.nullIfError = true →
        runActionResolver actionName d rctx root args = .ok .null) ∧
    (d.nullIfError = false →
        runActionResolver actionName d rctx root args = .error (scrubCtx e) ∧
        truthy (scrubCtx e).ctxRef = false) := by
  constructor
  · intro hn
    simp [runActionResolver, hdl, hcall, hn]
  · intro hn
    refine ⟨by simp [runActionResolver, hdl, hcall, hn], ?_⟩
    cases e with
    | mk nm msg cd ty ctx cause =>
        rcases Bool.dichotomy (truthy ctx) with hcx | hcx
        · rw [show scrubCtx (.mk nm msg cd ty ctx cause) = .mk nm msg cd ty ctx cause
                from by simp [scrubCtx, hcx]]
          exact hcx
        · rw [show scrubCtx (.mk nm msg cd ty ctx cause) = .mk nm msg cd ty .null cause
                from by simp [scrubCtx, hcx]]
          rfl

theorem C6_witness :
    runActionResolver "user.get" { nullIfError := false } (failingCtx sampleErr)
        (.obj []) (.obj []) = .error (scrubCtx sampleErr) ∧
    truthy (scrubCtx sampleErr).ctxRef = false :=
  (C6_null_on_error "user.get" { nullIfError := false } (failingCtx sampleErr)
      (.obj []) (.obj []) sampleErr rfl rfl).2 rfl

/-- Claim C8: a composition pass that fails for any underlying cause
produces the schema-composition wrapper error carrying that cause; the
demanding `prepareGraphQLSchema` run propagates exactly that failure,
leaves the staleness flag set (the state remains STALE), and the next
demand runs the rebuild body again rather than early-returning. -/
theorem C8_composition_failure
    (compile : List String → ResolverMap → Except JsError Nat)
    (baseTypeDefs : List String) (baseResolvers : ResolverMap)
    (services : List Service) (e : JsError) (s : LifeState) (instId : Nat)
    (hfail : collectSchema baseResolvers services = .error e ∨
      ∃ acc, collectSchema baseResolvers services = .ok acc ∧
        compile (baseTypeDefs ++ assembleTypeDefs acc) acc.resolvers = .error e)
    (hstale : s.shouldUpdateGraphqlSchema = true) :
    generateGraphQLSchema compile baseTypeDefs baseResolvers services =
        .error (wrapCompositionError e) ∧
    (wrapCompositionError e).causeOf = some e ∧
    prepareGraphQLSchema
        (Except.map (fun _ => instId)
          (generateGraphQLSchema compile baseTypeDefs baseResolvers services)) s =
      ({ s with rebuildCount := s.rebuildCount + 1 }, some (wrapCompositionError e)) ∧
    ({ s with rebuildCount := s.rebuildCount + 1 } : LifeState).shouldUpdateGraphqlSchema = true ∧
    demandTriggersRebuild { s with rebuildCount := s.rebuildCount + 1 } = true := by
  have hgen : generateGraphQLSchema compile baseTypeDefs baseResolvers services =
      .error (wrapCompositionError e) := by
    rcases hfail with h | ⟨acc, hc, hcomp⟩
    · simp [generateGraphQLSchema, h]
    · simp [generateGraphQLSchema, hc, hcomp]
  refine ⟨hgen, rfl, ?_, ?_, ?_⟩
  · rw [hgen]
    simp [prepareGraphQLSchema, hstale, Except.map]
  · simpa using hstale
  · simp [demandTriggersRebuild, hstale]

theorem C8_witness :
    prepareGraphQLSchema
        (Except.map (fun _ => 2)
          (generateGraphQLSchema (fun _ _ => .error sampleErr) [] [] []))
        staleWithServer =
      ({ staleWithServer with rebuildCount := staleWithServer.rebuildCount + 1 },
        some (wrapCompositionError sampleErr)) :=
  (C8_composition_failure (fun _ _ => .error sampleErr) [] [] [] sampleErr
      staleWithServer 2 (Or.inr ⟨{ resolvers := [] }, rfl, rfl⟩) rfl).2.2.1

theorem addActionQueries_processed (a : String) (qs : List String)
    (st : SchemaAcc × ResolverMap) :
    (addActionQueries a st qs).1.processed = st.1.processed := by
  induction qs generalizing st with
  | nil => rfl
  | cons q rest ih =>
      have hstep : addActionQueries a st (q :: rest) =
          addActionQueries a
            ({ st.1 with queries := st.1.queries ++ [q] },
              rmSetField st.2 "Query" (getFieldName q) (.actionRes a {})) rest := rfl
      rw [hstep, ih]

theorem addActionMutations_processed (a : String) (ms : List String)
    (st : SchemaAcc × ResolverMap) :
    (addActionMutations a st ms).1.processed = st.1.processed := by
  induction ms generalizing st with
  | nil => rfl
  | cons m rest ih =>
      have hstep : addActionMutations a st (m :: rest) =
          addActionMutations a
            ({ st.1 with mutations := st.1.mutations ++ [m] },
              rmSetField st.2 "Mutation" (getFieldName m) (.actionRes a {})) rest := rfl
      rw [hstep, ih]

theorem addActionSubs_processed (a : String) (tags : List String)
    (f : Option String) (subs : List String) (st st' : SchemaAcc × ResolverMap)
    (h : addActionSubs a tags f st subs = .ok st') :
    st'.1.processed = st.1.processed := by
  cases subs with
  | nil =>
      obtain rfl := Except.ok.inj h
      rfl
  | cons s rest =>
      obtain ⟨acc, rm⟩ := st
      simp [addActionSubs, createAsyncIteratorResolver, subResolverScope] at h

theorem processAction_processed (st st' : SchemaAcc × ResolverMap)
    (a : ActionDesc) (h : processAction st a = .ok st') :
    st'.1.processed = st.1.processed := by
  cases hg : a.graphql with
  | none =>
      simp only [processAction, hg] at h
      obtain rfl := Except.ok.inj h
      rfl
  | some d =>
      simp only [processAction, hg] at h
      cases hsub : addActionSubs a.name d.tags d.filter
          (addActionMutations a.name (addActionQueries a.name st d.query) d.mutation)
          d.subscription with
      | error e => rw [hsub] at h; exact absurd h (by simp)
      | ok st3 =>
          rw [hsub] at h
          replace h := Except.ok.inj h
          have hp3 := addActionSubs_processed a.name d.tags d.filter d.subscription
            (addActionMutations a.name (addActionQueries a.name st d.query) d.mutation)
            st3 hsub
          rw [← h]
          simp only []
          rw [hp3, addActionMutations_processed, addActionQueries_processed]

theorem processActionsList_processed (acts : List ActionDesc)
    (st st' : SchemaAcc × ResolverMap)
    (h : processActionsList st acts = .ok st') :
    st'.1.processed = st.1.processed := by
  induction acts generalizing st with
  | nil =>
      simp only [processActionsList] at h
      obtain rfl := Except.ok.inj h
      rfl
  | cons a rest ih =>
      simp only [processActionsList] at h
      cases hpa : processAction st a with
      | error e => rw [hpa] at h; exact absurd h (by simp)
      | ok stm =>
          rw [hpa] at h
          exact (ih stm h).trans (processAction_processed st stm a hpa)

theorem processService_processed (acc acc' : SchemaAcc) (svc : Service)
    (h : processService acc svc = .ok acc') : acc'.processed = acc.processed := by
  have main : ∀ acc1 : SchemaAcc, acc1.processed = acc.processed →
      (match processActionsList (acc1, ([] : ResolverMap)) svc.actions with
        | .error e => (.error e : Except JsError SchemaAcc)
        | .ok st =>
            .ok { st.1 with
                    resolvers :=
                      if st.2.isEmpty then st.1.resolvers
                      else mergeRM st.1.resolvers st.2 }) = .ok acc' →
      acc'.processed = acc.processed := by
    intro acc1 hp hm
    cases hpl : processActionsList (acc1, ([] : ResolverMap)) svc.actions with
    | error e => rw [hpl] at hm; exact absurd hm (by simp)
    | ok st =>
        rw [hpl] at hm
        replace hm := Except.ok.inj hm
        have h1 : st.1.processed = acc1.processed := by
          simpa using processActionsList_processed svc.actions (acc1, []) st hpl
        rw [← hm]
        simp only []
        rw [h1, hp]
  cases hsg : svc.settingsGraphql with
  | none =>
      refine main acc rfl ?_
      simp only [processService, hsg] at h
      exact h
  | some g =>
      refine main (processGlobalDef (getServiceName svc) acc g) rfl ?_
      simp only [processService, hsg] at h
      exact h

theorem collectAux_dup (pre : List Service) (acc : SchemaAcc) (svc : Service)
    (post : List Service)
    (hmem : getServiceName svc ∈ acc.processed ∨
      getServiceName svc ∈ pre.map getServiceName) :
    collectAux acc (pre ++ svc :: post) = collectAux acc (pre ++ post) := by
  induction pre generalizing acc with
  | nil =>
      rcases hmem with hmem | hmem
      · simp only [List.nil_append, collectAux]
        rw [if_pos hmem]
      · simp at hmem
  | cons p pre ih =>
      simp only [List.cons_append, collectAux]
      by_cases hp : getServiceName p ∈ acc.processed
      · rw [if_pos hp, if_pos hp]
        apply ih
        rcases hmem with h | h
        · exact Or.inl h
        · simp only [List.map_cons, List.mem_cons] at h
          rcases h with h | h
          · rw [h]; exact Or.inl hp
          · exact Or.inr h
      · rw [if_neg hp, if_neg hp]
        cases hps : processService
            { acc with processed := acc.processed ++ [getServiceName p] } p with
        | error e => rfl
        | ok acc' =>
            apply ih
            have hproc := processService_processed _ _ _ hps
            rcases hmem with h | h
            · refine Or.inl ?_
              rw [hproc]
              exact List.mem_append_left _ h
            · simp only [List.map_cons, List.mem_cons] at h
              rcases h with h | h
              · refine Or.inl ?_
                rw [hproc, h]
                exact List.mem_append_right _ (by simp)
              · exact Or.inr h

/-- Claim C2: in one composition pass a service whose composed
(version-qualified) name already occurred earlier in the list contributes
nothing — the pass over `pre ++ [svc] ++ post` equals the pass over
`pre ++ post`, for every compile function, seed typeDefs/resolvers and
surrounding services (the first occurrence, being in `pre`, is processed
normally on both sides). -/
theorem C2_service_dedup
    (compile : List String → ResolverMap → Except JsError Nat)
    (baseTypeDefs : List String) (baseResolvers : ResolverMap)
    (pre : List Service) (svc : Service) (post : List Service)
    (hdup : getServiceName svc ∈ pre.map getServiceName) :
    generateGraphQLSchema compile baseTypeDefs baseResolvers (pre ++ svc :: post) =
      generateGraphQLSchema compile baseTypeDefs baseResolvers (pre ++ post) := by
  unfold generateGraphQLSchema collectSchema
  rw [collectAux_dup pre _ svc post (Or.inr hdup)]

theorem C2_witness :
    generateGraphQLSchema (fun _ _ => .ok 0) [] []
        ([{ name := "users",
            settingsGraphql := some { query := ["users: [User]"] } }] ++
          { name := "users",
            settingsGraphql := some { query := ["extra: Int"] } } :: []) =
      generateGraphQLSchema (fun _ _ => .ok 0) [] []
        ([{ name := "users",
            settingsGraphql := some { query := ["users: [User]"] } }] ++ []) :=
  C2_service_dedup (fun _ _ => .ok 0) [] []
    [{ name := "users", settingsGraphql := some { query := ["users: [User]"] } }]
    { name := "users", settingsGraphql := some { query := ["extra: Int"] } } []
    (by decide)

theorem alookup_filter_ne {α : Type} (gs : List (String × α)) (k k' : String)
    (h : k ≠ k') :
    alookup (gs.filter (fun kv => kv.1 != k')) k = alookup gs k := by
  induction gs with
  | nil => rfl
  | cons g rest ih =>
      obtain ⟨gk, gv⟩ := g
      by_cases hg : gk = k'
      · have hne : gk ≠ k := by rw [hg]; exact fun hh => h hh.symm
        have hf : ((gk, gv).1 != k') = false := by simp [hg]
        rw [List.filter_cons, hf]
        simp only [Bool.false_eq_true, if_false]
        rw [ih, alookup, if_neg hne]
      · have hf : ((gk, gv).1 != k') = true := by simp [hg]
        rw [List.filter_cons, hf]
        simp only [if_true]
        by_cases hk : gk = k
        · rw [alookup, if_pos hk, alookup, if_pos hk]
        · rw [alookup, if_neg hk, alookup, if_neg hk, ih]

theorem alookup_ddObj (fs : List (String × JVal)) :
    ∀ (gs : List (String × JVal)) (k : String),
      alookup (ddObj fs gs) k = optDD (alookup fs k) (alookup gs k) := by
  induction fs with
  | nil =>
      intro gs k
      cases hg : alookup gs k <;> simp [ddObj, alookup, optDD, hg]
  | cons f fs ih =>
      intro gs k
      obtain ⟨fk, fv⟩ := f
      by_cases hk : fk = k
      · subst hk
        simp only [ddObj, alookup, if_pos]
        cases hg : alookup gs fk with
        | some w => simp [optDD, hg]
        | none => simp [optDD, hg]
      · simp only [ddObj, alookup, if_neg hk]
        rw [ih (gs.filter (fun kv => kv.1 != fk)) k,
          alookup_filter_ne gs k fk (fun hh => hk hh.symm)]

theorem topGet_ddMerge (a b : JVal) (k : String)
    (ha : isObj a = true ∨ a = .undef) :
    topGet (ddMerge a b) k = optDD (topGet a k) (topGet b k) := by
  rcases ha with ha | ha
  · cases a with
    | obj fs =>
        cases b with
        | obj gs => simpa [ddMerge, topGet] using alookup_ddObj fs gs k
        | undef => cases hx : alookup fs k <;> simp [ddMerge, topGet, optDD, hx]
        | null => cases hx : alookup fs k <;> simp [ddMerge, topGet, optDD, hx]
        | bool bb => cases hx : alookup fs k <;> simp [ddMerge, topGet, optDD, hx]
        | num n => cases hx : alookup fs k <;> simp [ddMerge, topGet, optDD, hx]
        | str s => cases hx : alookup fs k <;> simp [ddMerge, topGet, optDD, hx]
        | arr xs => cases hx : alookup fs k <;> simp [ddMerge, topGet, optDD, hx]
    | undef => simp [isObj] at ha
    | null => simp [isObj] at ha
    | bool bb => simp [isObj] at ha
    | num n => simp [isObj] at ha
    | str s => simp [isObj] at ha
    | arr xs => simp [isObj] at ha
  · subst ha
    simp [ddMerge, topGet, optDD]

theorem splitPathAux_ne_nil (l : List Char) :
    ∀ acc : List Char, splitPathAux acc l ≠ [] := by
  induction l with
  | nil => intro acc; simp [splitPathAux]
  | cons c r ih =>
      intro acc
      by_cases hc : c = '.'
      · subst hc; simp [splitPathAux]
      · rw [show splitPathAux acc (c :: r) = splitPathAux (c :: acc) r from by
              simp [splitPathAux, hc]]
        exact ih (c :: acc)

theorem parsePath_ne_nil (s : String) : parsePath s ≠ [] :=
  splitPathAux_ne_nil s.data []

theorem isObj_jset (v : JVal) (path : String) (x : JVal)
    (hv : isObj v = true) : isObj (jset v path x) = true := by
  cases v with
  | obj fs =>
      have h1 : jset (.obj fs) path x = jsetP (.obj fs) (parsePath path) x := rfl
      rw [h1]
      cases hp : parsePath path with
      | nil => exact absurd hp (parsePath_ne_nil path)
      | cons k rest => simp [jsetP, isObj]
  | undef => simp [isObj] at hv
  | null => simp [isObj] at hv
  | bool bb => simp [isObj] at hv
  | num n => simp [isObj] at hv
  | str s => simp [isObj] at hv
  | arr xs => simp [isObj] at hv

theorem isObj_junset (v : JVal) (path : String)
    (hv : isObj v = true) : isObj (junset v path) = true := by
  cases v with
  | obj fs =>
      have h1 : junset (.obj fs) path = junsetP (.obj fs) (parsePath path) := rfl
      rw [h1]
      cases hp : parsePath path with
      | nil => exact absurd hp (parsePath_ne_nil path)
      | cons k rest =>
          cases rest with
          | nil => simp [junsetP, isObj]
          | cons k2 r2 =>
              cases ha : alookup fs k <;> simp [junsetP, isObj, ha]
  | undef => simp [isObj] at hv
  | null => simp [isObj] at hv
  | bool bb => simp [isObj] at hv
  | num n => simp [isObj] at hv
  | str s => simp [isObj] at hv
  | arr xs => simp [isObj] at hv

theorem isObj_foldl_jset (l : List (String × String)) (w : JVal) :
    ∀ p : JVal, isObj p = true →
      isObj (l.foldl (fun p kv => jset p kv.2 (jget w kv.1)) p) = true := by
  induction l with
  | nil => intro p hp; simpa using hp
  | cons kv rest ih =>
      intro p hp
      have hstep : (kv :: rest).foldl (fun p kv => jset p kv.2 (jget w kv.1)) p =
          rest.foldl (fun p kv => jset p kv.2 (jget w kv.1))
            (jset p kv.2 (jget w kv.1)) := rfl
      rw [hstep]
      exact ih _ (isObj_jset _ _ _ hp)

theorem isObj_foldl_argPair_fst (l : List (String × String)) :
    ∀ st : JVal × JVal, isObj st.1 = true →
      isObj ((l.foldl
        (fun st kv => (jset st.1 kv.2 (jget st.2 kv.1), junset st.2 kv.1)) st)).1 = true := by
  induction l with
  | nil => intro st hp; simpa using hp
  | cons kv rest ih =>
      intro st hp
      exact ih (jset st.1 kv.2 (jget st.2 kv.1), junset st.2 kv.1)
        (isObj_jset _ _ _ hp)

theorem isObj_foldl_argPair_snd (l : List (String × String)) :
    ∀ st : JVal × JVal, isObj st.2 = true →
      isObj ((l.foldl
        (fun st kv => (jset st.1 kv.2 (jget st.2 kv.1), junset st.2 kv.1)) st)).2 = true := by
  induction l with
  | nil => intro st hp; simpa using hp
  | cons kv rest ih =>
      intro st hp
      exact ih (jset st.1 kv.2 (jget st.2 kv.1), junset st.2 kv.1)
        (isObj_junset _ _ hp)

theorem isObj_ddMerge (a b : JVal) (ha : isObj a = true) (hb : isObj b = true) :
    isObj (ddMerge a b) = true := by
  cases a with
  | obj fs =>
      cases b with
      | obj gs => simp [ddMerge, isObj]
      | undef => simp [isObj] at hb
      | null => simp [isObj] at hb
      | bool bb => simp [isObj] at hb
      | num n => simp [isObj] at hb
      | str s => simp [isObj] at hb
      | arr xs => simp [isObj] at hb
  | undef => simp [isObj] at ha
  | null => simp [isObj] at ha
  | bool bb => simp [isObj] at ha
  | num n => simp [isObj] at ha
  | str s => simp [isObj] at ha
  | arr xs => simp [isObj] at ha

theorem isObj_overlayStage (w : JVal) (ms : List (String × String)) (p : JVal)
    (hp : isObj p = true) : isObj (overlayStage w ms p) = true := by
  unfold overlayStage
  split
  · exact isObj_foldl_jset ms w p hp
  · exact hp

theorem isObj_argStage_fst (ms : List (String × String)) (st : JVal × JVal)
    (h : isObj st.1 = true) : isObj (argStage ms st).1 = true := by
  unfold argStage
  split
  · exact isObj_foldl_argPair_fst ms st h
  · exact h

theorem isObj_argStage_snd (ms : List (String × String)) (st : JVal × JVal)
    (h : isObj st.2 = true) : isObj (argStage ms st).2 = true := by
  unfold argStage
  split
  · exact isObj_foldl_argPair_snd ms st h
  · exact h

theorem isObj_overlay (d : ActionResolverDef) (root args meta : JVal) :
    isObj (directOverlayArgs d root args meta).1 = true := by
  unfold directOverlayArgs
  exact isObj_argStage_fst _ _
    (isObj_overlayStage root d.rootParams _
      (isObj_overlayStage meta d.metaParams _ rfl))

theorem isObj_residual (d : ActionResolverDef) (root args meta : JVal)
    (hargs : isObj args = true) :
    isObj (directOverlayArgs d root args meta).2 = true := by
  unfold directOverlayArgs
  exact isObj_argStage_snd _ _ hargs

/-- Claim C3 is FALSE: the claim's merged object is missing its
highest-precedence layer.  `_.defaultsDeep(args, p, params)` takes the
residual `args` (after removal of mapped keys) as the base object, so a
key left in `args` overrides the root-to-param mapping for the same
target.  Here `rootParams = { a: "x" }`, `root = { a: 7 }`,
`args = { x: 42 }`: the remote call (observed through an echoing call
capability) receives `{ x: 42 }`, while the claim's merge yields
`{ x: 7 }`. -/
theorem C3_counterexample :
    directCallParams { rootParams := [("a", "x")] }
        (.obj [("a", .num 7)]) (.obj [("x", .num 42)]) .null =
      .obj [("x", .num 42)] ∧
    specDirectParams { rootParams := [("a", "x")] }
        (.obj [("a", .num 7)]) (.obj [("x", .num 42)]) .null =
      .obj [("x", .num 7)] ∧
    runActionResolver "user.get" { rootParams := [("a", "x")] } echoCtx
        (.obj [("a", .num 7)]) (.obj [("x", .num 42)]) =
      .ok (.obj [("x", .num 42)]) ∧
    (JVal.obj [("x", .num 42)]) ≠ .obj [("x", .num 7)] := by
  refine ⟨rfl, rfl, rfl, fun h => ?_⟩
  simp at h

/-- Claim C3 as amended: the resolver's remote call receives exactly
`_.defaultsDeep(residualArgs, overlay, params)` where `overlay` is the
object built by assigning the meta-to-param, then root-to-param, then
arg-to-param path mappings (later assignments overwrite earlier ones at
the same path, so arg mappings take precedence inside the overlay) and
`residualArgs` is `args` with the mapped arg keys removed.  At every
top-level key the precedence is: residual args first, then the overlay,
then the static params, deep-merging where layers collide on defined
object values. -/
theorem C3_direct_params (actionName : String) (d : ActionResolverDef)
    (rctx : ResolverCtx) (root args : JVal) (k : String)
    (hdl : d.dataLoader = false) (hargs : isObj args = true) :
    (runActionResolver actionName d rctx root args =
      match rctx.callResult actionName (directCallParams d root args rctx.meta) with
      | .ok v => .ok v
      | .error e => if d.nullIfError then .ok .null else .error (scrubCtx e)) ∧
    topGet (directCallParams d root args rctx.meta) k =
      optDD
        (optDD (topGet (directOverlayArgs d root args rctx.meta).2 k)
          (topGet (directOverlayArgs d root args rctx.meta).1 k))
        (topGet d.params k) := by
  constructor
  · simp [runActionResolver, hdl]
  · have hover := isObj_overlay d root args rctx.meta
    have hres := isObj_residual d root args rctx.meta hargs
    have hdd := isObj_ddMerge _ _ hres hover
    have hshow : directCallParams d root args rctx.meta =
        ddMerge (ddMerge (directOverlayArgs d root args rctx.meta).2
          (directOverlayArgs d root args rctx.meta).1) d.params := rfl
    rw [hshow, topGet_ddMerge _ _ k (Or.inl hdd),
      topGet_ddMerge _ _ k (Or.inl hres)]

theorem C3_witness :
    runActionResolver "user.get"
        { rootParams := [("a", "x")], params := .obj [("lang", .str "en")] }
        echoCtx (.obj [("a", .num 7)]) (.obj []) =
      .ok (.obj [("x", .num 7), ("lang", .str "en")]) ∧
    topGet (directCallParams
        { rootParams := [("a", "x")], params := .obj [("lang", .str "en")] }
        (.obj [("a", .num 7)]) (.obj []) .null) "x" = some (.num 7) := by
  have h := C3_direct_params "user.get"
    { rootParams := [("a", "x")], params := .obj [("lang", .str "en")] }
    echoCtx (.obj [("a", .num 7)]) (.obj []) "x" rfl rfl
  refine ⟨?_, ?_⟩
  · rw [h.1]; rfl
  · rw [show (echoCtx.meta : JVal) = .null from rfl] at h
    rw [h.2]; rfl

theorem alookup_append {α : Type} (xs ys : List (String × α)) (k : String) :
    alookup (xs ++ ys) k =
      match alookup xs k with
      | some v => some v
      | none => alookup ys k := by
  induction xs with
  | nil => rfl
  | cons x rest ih =>
      obtain ⟨xk, xv⟩ := x
      by_cases hx : xk = k
      · simp [alookup, hx]
      · simp [alookup, hx, ih]

theorem alookup_isSome_mapSnd {α β : Type} (a : List (String × α))
    (f : String × α → β) (k : String) :
    (alookup (a.map (fun kv => (kv.1, f kv))) k).isSome =
      (alookup a k).isSome := by
  induction a with
  | nil => rfl
  | cons x rest ih =>
      obtain ⟨xk, xv⟩ := x
      by_cases hx : xk = k
      · simp [alookup, hx]
      · simp [alookup, hx, ih]

theorem alookup_filter_keyTrue {α : Type} (b : List (String × α))
    (p : String × α → Bool) (k : String)
    (h : ∀ kv : String × α, kv.1 = k → p kv = true) :
    alookup (b.filter p) k = alookup b k := by
  induction b with
  | nil => rfl
  | cons x rest ih =>
      obtain ⟨xk, xv⟩ := x
      by_cases hx : xk = k
      · subst hx
        have hp := h (xk, xv) rfl
        simp [List.filter_cons, hp, alookup]
      · cases hp : p (xk, xv)
        · simp [List.filter_cons, hp, alookup, hx, ih]
        · simp [List.filter_cons, hp, alookup, hx, ih]

theorem alookup_isSome_objAssign {α : Type} (a b : List (String × α))
    (k : String) :
    (alookup (objAssign a b) k).isSome =
      ((alookup a k).isSome || (alookup b k).isSome) := by
  unfold objAssign
  rw [alookup_append]
  cases ha : alookup a k with
  | some v =>
      have hm : (alookup (a.map (fun kv => (kv.1, (alookup b kv.1).getD kv.2))) k).isSome = true := by
        rw [alookup_isSome_mapSnd]; simp [ha]
      obtain ⟨w, hw⟩ := Option.isSome_iff_exists.mp hm
      rw [hw]
      simp
  | none =>
      cases hmm : alookup (a.map (fun kv => (kv.1, (alookup b kv.1).getD kv.2))) k with
      | some w =>
          have := alookup_isSome_mapSnd a (fun kv => (alookup b kv.1).getD kv.2) k
          rw [ha, hmm] at this
          simp at this
      | none =>
          rw [alookup_filter_keyTrue b _ k (fun kv hkv => by rw [hkv, ha]; rfl)]
          simp

theorem loaderFieldStep_isSome (meta : JVal) (sn n : String)
    (accF : List (String × LoaderSpec)) (fkv : String × RawResolver) :
    (alookup (loaderFieldStep meta sn accF fkv) n).isSome =
      ((alookup accF n).isSome || fieldQualifies sn n fkv) := by
  obtain ⟨fname, r⟩ := fkv
  cases r with
  | raw v => simp [loaderFieldStep, fieldQualifies]
  | action a d =>
      cases hrp : d.rootParams.map Prod.snd with
      | nil => simp [loaderFieldStep, fieldQualifies, hrp]
      | cons ap rest =>
          by_cases hcond : (d.dataLoader && !ap.isEmpty) = true
          · cases halk : alookup accF (getResolverActionName sn a) with
            | none =>
                have hstep : loaderFieldStep meta sn accF (fname, .action a d) =
                    accF ++ [(getResolverActionName sn a, loaderFor meta sn a d ap)] := by
                  simp [loaderFieldStep, hrp, hcond, halk]
                rw [hstep, alookup_append]
                cases han : alookup accF n with
                | some v => simp [fieldQualifies, hrp, hcond]
                | none =>
                    by_cases hnn : getResolverActionName sn a = n
                    · simp [alookup, hnn, fieldQualifies, hrp, hcond]
                    · simp [alookup, hnn, fieldQualifies, hrp, hcond]
            | some w =>
                have hstep : loaderFieldStep meta sn accF (fname, .action a d) = accF := by
                  simp [loaderFieldStep, hrp, hcond, halk]
                rw [hstep]
                by_cases hnn : getResolverActionName sn a = n
                · rw [hnn] at halk
                  simp [fieldQualifies, hrp, hcond, hnn, halk]
                · simp [fieldQualifies, hrp, hcond, hnn]
          · have hstep : loaderFieldStep meta sn accF (fname, .action a d) = accF := by
              simp [loaderFieldStep, hrp, hcond]
            rw [hstep]
            simp [fieldQualifies, hrp, hcond]

theorem loaderFields_isSome (meta : JVal) (sn n : String)
    (fs : List (String × RawResolver)) :
    ∀ accF : List (String × LoaderSpec),
      (alookup (fs.foldl (loaderFieldStep meta sn) accF) n).isSome =
        ((alookup accF n).isSome || fs.any (fieldQualifies sn n)) := by
  induction fs with
  | nil => intro accF; simp
  | cons fkv rest ih =>
      intro accF
      rw [List.foldl_cons, ih, loaderFieldStep_isSome]
      simp [Bool.or_assoc]

theorem loaderTypeStep_isSome (meta : JVal) (sn n : String)
    (accR : List (String × LoaderSpec))
    (tkv : String × List (String × RawResolver)) :
    (alookup (loaderTypeStep meta sn accR tkv) n).isSome =
      ((alookup accR n).isSome || tkv.2.any (fieldQualifies sn n)) := by
  unfold loaderTypeStep
  rw [alookup_isSome_objAssign, loaderFields_isSome]
  simp [alookup]

theorem loaderTypes_isSome (meta : JVal) (sn n : String)
    (ts : List (String × List (String × RawResolver))) :
    ∀ accR : List (String × LoaderSpec),
      (alookup (ts.foldl (loaderTypeStep meta sn) accR) n).isSome =
        ((alookup accR n).isSome ||
          ts.any (fun tkv => tkv.2.any (fieldQualifies sn n))) := by
  induction ts with
  | nil => intro accR; simp
  | cons tkv rest ih =>
      intro accR
      rw [List.foldl_cons, ih, loaderTypeStep_isSome]
      simp [Bool.or_assoc]

theorem loaderServiceStep_isSome (meta : JVal) (n : String)
    (accS : List (String × LoaderSpec)) (svc : Service) :
    (alookup (loaderServiceStep meta accS svc) n).isSome =
      ((alookup accS n).isSome ||
        (match svc.settingsGraphql with
          | some g =>
              g.resolvers.any (fun tkv =>
                tkv.2.any (fieldQualifies (getServiceName svc) n))
          | none => false)) := by
  cases hsg : svc.settingsGraphql with
  | none => simp [loaderServiceStep, hsg]
  | some g =>
      simp only [loaderServiceStep, hsg]
      rw [alookup_isSome_objAssign, loaderTypes_isSome]
      simp [alookup]

theorem createLoaders_isSome_aux (meta : JVal) (n : String)
    (services : List Service) :
    ∀ accS : List (String × LoaderSpec),
      (alookup (services.foldl (loaderServiceStep meta) accS) n).isSome =
        ((alookup accS n).isSome ||
          services.any (fun svc =>
            match svc.settingsGraphql with
            | some g =>
                g.resolvers.any (fun tkv =>
                  tkv.2.any (fieldQualifies (getServiceName svc) n))
            | none => false)) := by
  induction services with
  | nil => intro accS; simp
  | cons svc rest ih =>
      intro accS
      rw [List.foldl_cons, ih, loaderServiceStep_isSome]
      simp [Bool.or_assoc]

theorem alookup_eq_none_iff {α : Type} (m : List (String × α)) (k : String) :
    alookup m k = none ↔ k ∉ m.map Prod.fst := by
  induction m with
  | nil => simp [alookup]
  | cons x rest ih =>
      obtain ⟨xk, xv⟩ := x
      by_cases hx : xk = k
      · simp [alookup, hx]
      · have hx2 : ¬ k = xk := fun hh => hx hh.symm
        simp [alookup, hx, hx2, ih]

theorem nodup_objAssign {α : Type} (a b : List (String × α))
    (ha : (a.map Prod.fst).Nodup) (hb : (b.map Prod.fst).Nodup) :
    ((objAssign a b).map Prod.fst).Nodup := by
  unfold objAssign
  rw [List.map_append]
  have hmap : ((a.map (fun kv => (kv.1, (alookup b kv.1).getD kv.2))).map Prod.fst) =
      a.map Prod.fst := by
    rw [List.map_map]; rfl
  rw [hmap]
  refine List.Nodup.append ha ?_ ?_
  · exact ((List.filter_sublist b).map Prod.fst).nodup hb
  · intro x hxa hxb
    obtain ⟨kv, hkvmem, hkvfst⟩ := List.mem_map.mp hxb
    have hmemf := List.mem_filter.mp hkvmem
    have hnone : alookup a kv.1 = none := by
      simpa [Option.isNone_iff_eq_none] using hmemf.2
    rw [hkvfst] at hnone
    exact (alookup_eq_none_iff a x).mp hnone hxa

theorem nodup_loaderFieldStep (meta : JVal) (sn : String)
    (accF : List (String × LoaderSpec)) (fkv : String × RawResolver)
    (h : (accF.map Prod.fst).Nodup) :
    ((loaderFieldStep meta sn accF fkv).map Prod.fst).Nodup := by
  obtain ⟨fname, r⟩ := fkv
  cases r with
  | raw v => exact h
  | action a d =>
      cases hrp : d.rootParams.map Prod.snd with
      | nil => simpa [loaderFieldStep, hrp] using h
      | cons ap rest =>
          by_cases hcond : (d.dataLoader && !ap.isEmpty) = true
          · by_cases habs : (alookup accF (getResolverActionName sn a)).isNone = true
            · have hstep : loaderFieldStep meta sn accF (fname, .action a d) =
                  accF ++ [(getResolverActionName sn a, loaderFor meta sn a d ap)] := by
                simp [loaderFieldStep, hrp, hcond, habs]
              rw [hstep, List.map_append]
              refine List.Nodup.append h (by simp) ?_
              intro x hxa hxb
              simp at hxb
              subst hxb
              have hnone : alookup accF (getResolverActionName sn a) = none := by
                simpa [Option.isNone_iff_eq_none] using habs
              exact (alookup_eq_none_iff _ _).mp hnone hxa
            · have hstep : loaderFieldStep meta sn accF (fname, .action a d) = accF := by
                simp [loaderFieldStep, hrp, hcond, habs]
              rw [hstep]; exact h
          · have hstep : loaderFieldStep meta sn accF (fname, .action a d) = accF := by
              simp [loaderFieldStep, hrp, hcond]
            rw [hstep]; exact h

theorem nodup_loaderFields (meta : JVal) (sn : String)
    (fs : List (String × RawResolver)) :
    ∀ accF : List (String × LoaderSpec), (accF.map Prod.fst).Nodup →
      ((fs.foldl (loaderFieldStep meta sn) accF).map Prod.fst).Nodup := by
  induction fs with
  | nil => intro accF h; exact h
  | cons fkv rest ih =>
      intro accF h
      rw [List.foldl_cons]
      exact ih _ (nodup_loaderFieldStep meta sn accF fkv h)

theorem nodup_loaderTypes (meta : JVal) (sn : String)
    (ts : List (String × List (String × RawResolver))) :
    ∀ accR : List (String × LoaderSpec), (accR.map Prod.fst).Nodup →
      ((ts.foldl (loaderTypeStep meta sn) accR).map Prod.fst).Nodup := by
  induction ts with
  | nil => intro accR h; exact h
  | cons tkv rest ih =>
      intro accR h
      rw [List.foldl_cons]
      refine ih _ ?_
      exact nodup_objAssign _ _ h (nodup_loaderFields meta sn tkv.2 [] (by simp))

theorem nodup_createLoaders_aux (meta : JVal) (services : List Service) :
    ∀ accS : List (String × LoaderSpec), (accS.map Prod.fst).Nodup →
      ((services.foldl (loaderServiceStep meta) accS).map Prod.fst).Nodup := by
  induction services with
  | nil => intro accS h; exact h
  | cons svc rest ih =>
      intro accS h
      rw [List.foldl_cons]
      refine ih _ ?_
      cases hsg : svc.settingsGraphql with
      | none => simpa [loaderServiceStep, hsg] using h
      | some g =>
          simp only [loaderServiceStep, hsg]
          exact nodup_objAssign _ _ h
            (nodup_loaderTypes meta (getServiceName svc) g.resolvers [] (by simp))

/-- Claim C9 is FALSE as stated: a BatchedCall resolver that declares a
NON-EMPTY root-key mapping whose first target parameter name is the
empty string (`{ id: "" }`) targets `posts.list`, yet `createLoaders`
builds no batching unit for it, because line 573 tests the truthiness of
`Object.values(rootParams)[0]`, not the non-emptiness of the mapping. -/
theorem C9_counterexample :
    claimBatchedTargets [emptyTargetService] "posts.list" = true ∧
    createLoaders .null [emptyTargetService] = [] ∧
    alookup (createLoaders .null [emptyTargetService]) "posts.list" = none :=
  ⟨rfl, rfl, rfl⟩

/-- Claim C9 as amended: the loader registry contains a batching unit
for a fully-qualified action name exactly when some service-level
resolver in the (raw, un-deduplicated) service list is a plain object
with `dataLoader` truthy whose FIRST root-param target name is non-empty
and whose qualified action is that name; and the registry's keys are
unique, so there is exactly one batching unit per such name. -/
theorem C9_loader_registry (meta : JVal) (services : List Service)
    (n : String) :
    (alookup (createLoaders meta services) n).isSome =
        specWiredAction services n ∧
    ((createLoaders meta services).map Prod.fst).Nodup := by
  constructor
  · rw [createLoaders, createLoaders_isSome_aux]
    simp [specWiredAction, alookup]
  · exact nodup_createLoaders_aux meta services [] (by simp)

end MoleculerApollo
